import Mathlib

/-!
# Verification of the carbon-aware scheduler plugin (davemasselink/scheduler-plugins)

Shallow embedding of the admission-decision engine and its helpers:

* `goAtoi`, `goParseHHMM`, `parseFloatLit` — models of the Go standard-library
  parsing routines used by the plugin (`strconv.Atoi`, `time.Parse("15:04", ·)`,
  `strconv.ParseFloat`).
* `isDayInSchedule`, `isTimeInSchedule` — the peak-schedule evaluator from
  `pkg/carbonawarescheduler/peak/scheduler.go`.
* `validateSchedule` (from `pkg/carbonawarescheduler/config/types.go`) and
  `ValidateScheduleConfig` (from `pkg/carbonawarescheduler/carbonawarescheduler.go`).
* `cgEvaluate` and its sub-checks — the `computegardener` revision of
  `PreFilter` (`hasExceededMaxDelay`, `isOptedOut`, `checkPricingConstraints`,
  `checkCarbonIntensityConstraints`, `getCarbonIntensityData`).
* `revAPreFilter` — the `carbonawarescheduler.go` revision of `PreFilter`,
  including its in-flight pod counter, together with `revAPostBind`.
* A two-thread interleaving model of `getElectricityData` for the cache
  coalescing property.

Floating-point rates/intensities are modelled as `ℚ`: every property proved
here depends only on order comparisons of these quantities, never on rounding.
-/

namespace CarbonSched

/-- Model of Go `strings.Split(s, sep)` for a one-character separator,
written over character lists (splitting an empty string yields `[""]`,
and adjacent separators yield empty fields, as in Go). -/
def splitOnChar (sep : Char) : List Char → List (List Char)
  | [] => [[]]
  | c :: rest =>
    let r := splitOnChar sep rest
    if c = sep then [] :: r
    else
      match r with
      | group :: more => (c :: group) :: more
      | [] => [[c]]

/-- Model of Go `strings.TrimSpace`: drop leading and trailing whitespace. -/
def goTrim (cs : List Char) : List Char :=
  ((cs.dropWhile Char.isWhitespace).reverse.dropWhile Char.isWhitespace).reverse

/-- Model of Go `strconv.Atoi` on a character list: an optional sign
followed by one or more decimal digits; anything else is an error
(`none`). Overflow is ignored (the inputs of interest are single
digits). -/
def goAtoiChars (cs : List Char) : Option Int :=
  let signed : Bool × List Char :=
    match cs with
    | '-' :: rest => (true, rest)
    | '+' :: rest => (false, rest)
    | _ => (false, cs)
  let digits := signed.2
  if digits.isEmpty then none
  else if digits.all Char.isDigit then
    let n : Nat := digits.foldl (fun acc c => 10 * acc + (c.toNat - '0'.toNat)) 0
    some (if signed.1 then -(n : Int) else (n : Int))
  else none

/-- `strconv.Atoi` on a string. -/
def goAtoi (s : String) : Option Int :=
  goAtoiChars s.data

/-- Model of Go `time.Parse("15:04", s)`, returning the minute-of-day.
Per Go's parser: the hour is one or two decimal digits and must be `< 24`
(the layout digit `15` is not zero-padded, so `"1:30"` is accepted); the
separator is a literal `':'`; the minute is exactly two decimal digits and
must be `< 60`; trailing characters are an error. -/
def goParseHHMM (s : String) : Option Nat :=
  match s.data with
  | c1 :: rest1 =>
    if c1.isDigit then
      let hrest : Nat × List Char :=
        match rest1 with
        | c2 :: rest2 =>
          if c2.isDigit then
            (10 * (c1.toNat - '0'.toNat) + (c2.toNat - '0'.toNat), rest2)
          else
            (c1.toNat - '0'.toNat, rest1)
        | [] => (c1.toNat - '0'.toNat, [])
      let h := hrest.1
      match hrest.2 with
      | ':' :: m1 :: m2 :: [] =>
        if m1.isDigit && m2.isDigit then
          let m := 10 * (m1.toNat - '0'.toNat) + (m2.toNat - '0'.toNat)
          if h < 24 && m < 60 then some (h * 60 + m) else none
        else none
      | _ => none
    else none
  | [] => none

/-- Model of Go `strconv.ParseFloat` restricted to plain decimal literals:
an optional sign, then digits with at most one interior `'.'` and at least
one digit. Exponent/hex/Inf forms are not needed by any property proved
here; all concrete annotation values used below are plain decimals on which
this model and Go agree. -/
def parseFloatLit (s : String) : Option ℚ :=
  let cs := s.data
  let signed : Bool × List Char :=
    match cs with
    | '-' :: rest => (true, rest)
    | '+' :: rest => (false, rest)
    | _ => (false, cs)
  let body := signed.2
  let parts := splitOnChar '.' body
  let toNatD (l : List Char) : Nat :=
    l.foldl (fun acc c => 10 * acc + (c.toNat - '0'.toNat)) 0
  match parts with
  | [intPart] =>
    if intPart ≠ [] && intPart.all Char.isDigit then
      let v : ℚ := (toNatD intPart : ℚ)
      some (if signed.1 then -v else v)
    else none
  | [intPart, fracPart] =>
    if (intPart ≠ [] || fracPart ≠ []) &&
        intPart.all Char.isDigit && fracPart.all Char.isDigit then
      let v : ℚ :=
        (toNatD intPart : ℚ) +
          (toNatD fracPart : ℚ) / ((10 : ℚ) ^ fracPart.length)
      some (if signed.1 then -v else v)
    else none
  | _ => none

/-- An instant of wall-clock time as the decision code observes it:
`now.Weekday()` (0 = Sunday … 6 = Saturday) and the minute of the day
(`now.Hour()*60 + now.Minute()`). -/
structure Instant where
  weekday : Nat
  minute : Nat
deriving DecidableEq, Repr

/-- `config.Schedule` from `pkg/carbonawarescheduler/config/types.go`:
a textual day-of-week spec, textual `HH:MM` start/end times, and the
peak/off-peak rates in $/kWh. -/
structure Schedule where
  dayOfWeek : String
  startTime : String
  endTime : String
  peakRate : ℚ := 0
  offPeakRate : ℚ := 0
deriving DecidableEq, Repr

/-- `Scheduler.isDayInSchedule` from `peak/scheduler.go`: split the spec on
`','`; an item is a single day (`Atoi` must succeed and equal the current
day) or, after splitting on `'-'`, a two-sided range where a start greater
than the end wraps across the week boundary. Malformed items simply never
match (the Go code ignores `Atoi` errors and item shapes other than one or
two parts). -/
def isDayInSchedule (current : Nat) (scheduleDays : String) : Bool :=
  (splitOnChar ',' scheduleDays.data).any fun day =>
    match splitOnChar '-' (goTrim day) with
    | [d] =>
      match goAtoiChars d with
      | some n => n == (current : Int)
      | none => false
    | [d1, d2] =>
      match goAtoiChars d1, goAtoiChars d2 with
      | some s, some e =>
        if s > e then (current : Int) ≥ s || (current : Int) ≤ e
        else (current : Int) ≥ s && (current : Int) ≤ e
      | _, _ => false
    | _ => false

/-- `Scheduler.isTimeInSchedule` from `peak/scheduler.go`: the day must be
in the schedule, both times must parse, and then the minute-of-day is
compared with strict `After`/`Before`: inside `(start, end)` minutes when
`start ≤ end`, and inside `(start, 1440) ∪ [0, end)` when the window
crosses midnight (`end < start`). -/
def isTimeInSchedule (now : Instant) (schedule : Schedule) : Bool :=
  if ! isDayInSchedule now.weekday schedule.dayOfWeek then false
  else
    match goParseHHMM schedule.startTime with
    | none => false
    | some s =>
      match goParseHHMM schedule.endTime with
      | none => false
      | some e =>
        if e < s then decide (s < now.minute) || decide (now.minute < e)
        else decide (s < now.minute) && decide (now.minute < e)

/-- The spec's `isInside(t, window)` predicate, written from the spec's
words (not from the source) for comparison with `isTimeInSchedule`: true
iff the weekday is in the window's day set and the minute of day lies in
`[startMinute, endMinute)` when `startMinute ≤ endMinute`, else in
`[startMinute, 1440) ∪ [0, endMinute)`. -/
def specIsInside (days : List Nat) (startMinute endMinute : Nat)
    (t : Instant) : Bool :=
  days.contains t.weekday &&
    (if startMinute ≤ endMinute then
      decide (startMinute ≤ t.minute) && decide (t.minute < endMinute)
    else
      decide (startMinute ≤ t.minute) || decide (t.minute < endMinute))

/-- Validation failure kinds, abstracting the distinct `fmt.Errorf` sites of
the two schedule validators. -/
inductive ValErr where
  | invalidDay
  | invalidDayRange
  | invalidTime
deriving DecidableEq, Repr

/-- `validateSchedule` from `pkg/carbonawarescheduler/config/types.go`: every
character of `dayOfWeek` must be a digit `'0'..'6'` (the Go loop ranges over
the runes of the string, so `'-'` and `','` are rejected), and both times
must parse as `HH:MM`. The Go loop fails on the first offending rune; the
all-characters check is equivalent. -/
def validateSchedule (s : Schedule) : Except ValErr Unit :=
  if s.dayOfWeek.data.all (fun c => '0' ≤ c && c ≤ '6') then
    if (goParseHHMM s.startTime).isSome then
      if (goParseHHMM s.endTime).isSome then .ok ()
      else .error .invalidTime
    else .error .invalidTime
  else .error .invalidDay

/-- One comma-separated item of a `dayOfWeek` spec is accepted by
`ValidateScheduleConfig` when splitting it on `'-'` yields at most two
parts, each of which `Atoi`-parses to a number in `[0, 6]`. -/
def dayItemOk (day : List Char) : Bool :=
  let dayRange := splitOnChar '-' day
  dayRange.length ≤ 2 &&
    dayRange.all fun d =>
      match goAtoiChars d with
      | some n => decide (0 ≤ n) && decide (n ≤ 6)
      | none => false

/-- `ValidateScheduleConfig` from `carbonawarescheduler.go`: split the
`dayOfWeek` spec on `','`; a split of an item on `'-'` into more than two
parts is an error, as is any part that does not `Atoi`-parse into `0..6`;
then both times must parse as `HH:MM`. The Go loop fails on the first
offending item; the all-items check is equivalent (the error kinds are
collapsed into `ValErr.invalidDay`). -/
def ValidateScheduleConfig (s : Schedule) : Except ValErr Unit :=
  if (splitOnChar ',' s.dayOfWeek.data).all dayItemOk then
    if (goParseHHMM s.startTime).isSome then
      if (goParseHHMM s.endTime).isSome then .ok ()
      else .error .invalidTime
    else .error .invalidTime
  else .error .invalidDay

/-! ## The computegardener revision of the decision pipeline

From the unnamed source file holding the `computegardener` package's main
scheduler: `PreFilter`, `hasExceededMaxDelay`, `isOptedOut`,
`checkPricingConstraints`, `checkCarbonIntensityConstraints`,
`getCarbonIntensityData`. -/

/-- The decision inputs the pipeline reads from a pod: `CreationTimestamp`
(modelled as `clock.Since(creationTime)` in seconds, `none` when the
timestamp `IsZero`) and the annotations map. -/
structure Pod where
  createdAgo : Option Int
  annotations : List (String × String)
deriving DecidableEq, Repr

/-- Go map lookup with the comma-ok form: `pod.Annotations[k]`. -/
def annLookup (pod : Pod) (k : String) : Option String :=
  (pod.annotations.find? (fun kv => kv.1 == k)).map (fun kv => kv.2)

/-- Go map lookup without the ok flag: missing keys read as `""`. -/
def annGet (pod : Pod) (k : String) : String :=
  (annLookup pod k).getD ""

/-- The scheduler configuration fields the pipeline reads. -/
structure CGConfig where
  pricingEnabled : Bool
  pricingSchedules : List Schedule
  maxSchedulingDelay : Int
  baseCarbonIntensityThreshold : ℚ
  cacheTTL : Int
  maxCacheAge : Int
deriving DecidableEq, Repr

/-- The outcome of one `PreFilter` call, one constructor per `return` site
of the computegardener pipeline (the Go `framework.Status` code plus the
values interpolated into its message):
* `admitMaxDelay` — `Success, "maximum scheduling delay exceeded"`
* `admitOptedOut` — `Success, ""` after the skip-annotation check
* `admitOk` — `Success, ""` at the end of the pipeline
* `deferPrice rate threshold` — `Unschedulable`, rate exceeds threshold
* `deferCarbon intensity threshold` — `Unschedulable`, intensity exceeds
  threshold
* `errBadPriceThreshold`, `errBadCarbonThreshold` — `Error` on an
  unparseable threshold annotation
* `errNoPricingSchedules` — `Error, "no pricing schedules configured"`
* `errCarbonUnavailable e` — `Error, "failed to get carbon intensity data"` -/
inductive CGResult where
  | admitMaxDelay
  | admitOptedOut
  | admitOk
  | deferPrice (rate threshold : ℚ)
  | deferCarbon (intensity threshold : ℚ)
  | errBadPriceThreshold
  | errBadCarbonThreshold
  | errNoPricingSchedules
  | errCarbonUnavailable (e : String)
deriving DecidableEq, Repr

/-- `hasExceededMaxDelay`: a pod with a non-zero creation timestamp has
exceeded the delay budget when `clock.Since(creationTime)` is strictly
greater than `MaxSchedulingDelay`; a zero timestamp never has. -/
def hasExceededMaxDelay (cfg : CGConfig) (pod : Pod) : Bool :=
  match pod.createdAgo with
  | some age => decide (age > cfg.maxSchedulingDelay)
  | none => false

/-- `isOptedOut`: either skip annotation set to the string `"true"`. -/
def isOptedOut (pod : Pod) : Bool :=
  annGet pod "carbon-aware-scheduler.kubernetes.io/skip" == "true" ||
    annGet pod "price-aware-scheduler.kubernetes.io/skip" == "true"

/-- The carbon-signal inputs of one call: the cache entry for the region
(intensity and its age in seconds), if any, and the outcome the API client
would produce if a fetch were issued. -/
structure CarbonSource where
  cached : Option (ℚ × Int)
  fetch : Except String ℚ
deriving Repr

/-- Modelled from the spec: the Cache's `get(regionId)` operation — the
`pkg/computegardener/cache` package is not among the provided sources —
"returns the current reading iff fresh (age < TTL)"; stale-usable entries
(TTL ≤ age < MaxAge) are not returned by `get`. -/
def cacheGet (src : CarbonSource) (ttl : Int) : Option ℚ :=
  match src.cached with
  | some (v, age) => if age < ttl then some v else none
  | none => none

/-- `getCarbonIntensityData`: return the cached reading if the cache hit;
otherwise fetch from the API and propagate its error unchanged — there is
no second cache consultation after a failed fetch (the `Set` performed
after a successful fetch does not affect this call's result). -/
def getCarbonIntensityData (cfg : CGConfig) (src : CarbonSource) :
    Except String ℚ :=
  match cacheGet src cfg.cacheTTL with
  | some v => .ok v
  | none => src.fetch

/-- `checkPricingConstraints`: `none` models a `Success` status (the caller
continues), `some r` a terminal status. `pricingRate` is
`pricingImpl.GetCurrentRate(clock.Now())`, with `none` for a nil
`pricingImpl`. The threshold is the parsed `price-threshold` annotation
when present (an unparseable value is an error), else the off-peak rate of
the *first* configured schedule, else an error; the pod is deferred exactly
when `rate > threshold`. -/
def checkPricingConstraints (cfg : CGConfig) (pod : Pod)
    (pricingRate : Option ℚ) : Option CGResult :=
  match pricingRate with
  | none => none
  | some rate =>
    let thresholdE : Except CGResult ℚ :=
      match annLookup pod "price-aware-scheduler.kubernetes.io/price-threshold" with
      | some v =>
        match parseFloatLit v with
        | some t => .ok t
        | none => .error .errBadPriceThreshold
      | none =>
        match cfg.pricingSchedules with
        | s0 :: _ => .ok s0.offPeakRate
        | [] => .error .errNoPricingSchedules
    match thresholdE with
    | .error r => some r
    | .ok threshold =>
      if rate > threshold then some (.deferPrice rate threshold) else none

/-- `checkCarbonIntensityConstraints`: get the reading (propagating failure
as an error status), take the threshold from the pod annotation when it
parses (error when present but unparseable), else the configured base
threshold, and defer exactly when `intensity > threshold`. -/
def checkCarbonIntensityConstraints (cfg : CGConfig) (pod : Pod)
    (src : CarbonSource) : Option CGResult :=
  match getCarbonIntensityData cfg src with
  | .error e => some (.errCarbonUnavailable e)
  | .ok intensity =>
    let thresholdE : Except CGResult ℚ :=
      match annLookup pod "carbon-aware-scheduler.kubernetes.io/carbon-intensity-threshold" with
      | some v =>
        match parseFloatLit v with
        | some t => .ok t
        | none => .error .errBadCarbonThreshold
      | none => .ok cfg.baseCarbonIntensityThreshold
    match thresholdE with
    | .error r => some r
    | .ok threshold =>
      if intensity > threshold then some (.deferCarbon intensity threshold)
      else none

/-- The tail of `PreFilter` after the max-delay check: opt-out, then the
pricing check when pricing is enabled, then the carbon-intensity check. -/
def cgPostDelayChecks (cfg : CGConfig) (pod : Pod) (pricingRate : Option ℚ)
    (src : CarbonSource) : CGResult :=
  if isOptedOut pod then .admitOptedOut
  else
    let pricingStatus : Option CGResult :=
      if cfg.pricingEnabled then checkPricingConstraints cfg pod pricingRate
      else none
    match pricingStatus with
    | some r => r
    | none =>
      match checkCarbonIntensityConstraints cfg pod src with
      | some r => r
      | none => .admitOk

/-- The computegardener `PreFilter`: max-delay check first, then the
remaining pipeline. -/
def cgEvaluate (cfg : CGConfig) (pod : Pod) (pricingRate : Option ℚ)
    (src : CarbonSource) : CGResult :=
  if hasExceededMaxDelay cfg pod then .admitMaxDelay
  else cgPostDelayChecks cfg pod pricingRate src

/-! ## The `carbonawarescheduler.go` revision of `PreFilter`

This revision keeps the carbon-signal cache, the inline peak-schedule check
and the bounded in-flight pod counter (`currentlyScheduling`,
`maxConcurrentPods`) inside one file. -/

/-- Configuration fields of the `CarbonAwareScheduler` struct read by its
`PreFilter`. -/
structure RAConfig where
  baseCarbonIntensityThreshold : ℚ
  peakCarbonIntensityThreshold : ℚ
  maxSchedulingDelay : Int
  maxConcurrentPods : Int
  peakSchedules : Option (List Schedule)
deriving Repr

/-- Per-call inputs of this revision's `PreFilter`: the pod, the outcome
`getElectricityData` would produce (both calls inside one `PreFilter`
observe the same value: a success is cached for five minutes, an error is
returned immediately), and the wall clock read for the peak check. -/
structure RAInput where
  pod : Pod
  fetch : Except String ℚ
  now : Instant
deriving Repr

/-- Outcome of one `PreFilter` call of this revision, one constructor per
`return` site:
* `admitMaxDelay` — `Success, "allowing pod due to maximum scheduling delay exceeded"`
* `admitSkipped` — `Success, ""` after the skip-annotation check
* `errApi e` — `Error, "failed to get electricity data"`
* `errInvalidThreshold` — `Error` on an unparseable threshold annotation
* `deferCarbon peak intensity threshold` — `Unschedulable`, carbon intensity
  exceeds the base (`peak = false`) or peak (`peak = true`) threshold
* `deferConcurrency cap current` — `Unschedulable, "Max concurrent pods reached"`
* `admitSuccess` — `Success, ""` at the end of the pipeline -/
inductive RAResult where
  | admitMaxDelay
  | admitSkipped
  | errApi (e : String)
  | errInvalidThreshold
  | deferCarbon (peak : Bool) (intensity threshold : ℚ)
  | deferConcurrency (cap current : Int)
  | admitSuccess
deriving DecidableEq, Repr

/-- The inline peak-hours test of this revision's `PreFilter`. For each
schedule and each comma item: split on `'-'`, `start` is `Atoi` of the
first part (`0` on error — the Go code discards the error), `end` is `Atoi`
of the second part when there is one, else `start`; parts beyond the second
are ignored. The weekday test `start ≤ weekday ≤ end` does not wrap. The
times are re-formatted to canonical `"HH:MM"` (a parse error yields the
zero time, formatted `"00:00"`) and compared as strings against
`now.Format("15:04")`; since all three strings are canonical zero-padded
`HH:MM`, the lexicographic comparison equals the minute-of-day comparison
used here, giving the closed interval `startMinute ≤ minute ≤ endMinute`. -/
def isPeakHourA (now : Instant) (schedules : List Schedule) : Bool :=
  schedules.any fun sched =>
    (splitOnChar ',' sched.dayOfWeek.data).any fun day =>
      match splitOnChar '-' day with
      | [] => false
      | d0 :: rest =>
        let dayStart : Int := (goAtoiChars d0).getD 0
        let dayEnd : Int :=
          match rest with
          | [] => dayStart
          | d1 :: _ => (goAtoiChars d1).getD 0
        if (now.weekday : Int) ≥ dayStart && (now.weekday : Int) ≤ dayEnd then
          let sMin := (goParseHHMM sched.startTime).getD 0
          let eMin := (goParseHHMM sched.endTime).getD 0
          decide (now.minute ≥ sMin) && decide (now.minute ≤ eMin)
        else false

/-- This revision's `PreFilter`, as a function of the in-flight counter
`currentlyScheduling`. Returns the outcome, the new counter value, and
whether the electricity-data cache/API was consulted. Pipeline order as in
the source: max-delay, opt-out, electricity data (the initial-intensity
branch and the current-intensity read observe the same `getElectricityData`
outcome), threshold annotation, inline peak check, intensity test,
concurrency cap — the counter is incremented only when the cap check
passes, after every other check. -/
def revAPreFilter (cfg : RAConfig) (inp : RAInput) (count : Int) :
    RAResult × Int × Bool :=
  let maxDelayExceeded :=
    match inp.pod.createdAgo with
    | some age => decide (age > cfg.maxSchedulingDelay)
    | none => false
  if maxDelayExceeded then (.admitMaxDelay, count, false)
  else if annGet inp.pod "carbon-aware-scheduler.kubernetes.io/skip" == "true" then
    (.admitSkipped, count, false)
  else
    match inp.fetch with
    | .error e => (.errApi e, count, true)
    | .ok intensity =>
      let thresholdE : Except Unit ℚ :=
        match annLookup inp.pod "carbon-aware-scheduler.kubernetes.io/carbon-intensity-threshold" with
        | some v =>
          match parseFloatLit v with
          | some t => .ok t
          | none => .error ()
        | none => .ok cfg.baseCarbonIntensityThreshold
      match thresholdE with
      | .error _ => (.errInvalidThreshold, count, true)
      | .ok threshold =>
        let isPeak :=
          match cfg.peakSchedules with
          | some scheds => isPeakHourA inp.now scheds
          | none => false
        let currentThreshold :=
          if isPeak then cfg.peakCarbonIntensityThreshold else threshold
        if intensity > currentThreshold then
          (.deferCarbon isPeak intensity currentThreshold, count, true)
        else if count ≥ cfg.maxConcurrentPods then
          (.deferConcurrency cfg.maxConcurrentPods count, count, true)
        else (.admitSuccess, count + 1, true)

/-- `PostBind` of this revision: decrement `currentlyScheduling`, but only
when it is positive. -/
def revAPostBind (count : Int) : Int :=
  if count > 0 then count - 1 else count

/-- One host callback relevant to the in-flight counter: a `PreFilter` call
with its inputs, or a `PostBind` notification. -/
inductive RAOp where
  | pre (cfg : RAConfig) (inp : RAInput)
  | post
deriving Repr

/-- The in-flight counter after a sequence of host callbacks, starting from
`count`, with the engine's concurrency cap fixed at `cap` for the whole
run (it is immutable after start-up). -/
def raRunCount (cap : Int) (count : Int) : List RAOp → Int
  | [] => count
  | .pre cfg inp :: rest =>
    raRunCount cap
      (revAPreFilter { cfg with maxConcurrentPods := cap } inp count).2.1 rest
  | .post :: rest => raRunCount cap (revAPostBind count) rest

/-! ## Two concurrent callers of `getElectricityData`

`getElectricityData` takes the read lock, checks the cache, *releases the
lock*, and only then performs the HTTP fetch; a successful fetch takes the
write lock and installs the entry. Nothing records that a fetch is already
in flight. The model below has two caller threads; `check` is the atomic
read-locked cache test (moving a caller that misses into its own fetch),
`finish` is the atomic write-locked installation of a completed fetch. -/

/-- Progress of one caller of `getElectricityData`. -/
inductive FetchPC where
  | idle
  | inflight
  | done
deriving DecidableEq, Repr

/-- Shared state of two concurrent `getElectricityData` callers: each
caller's progress and whether a fresh cache entry is present. -/
structure FetchSys where
  pc1 : FetchPC
  pc2 : FetchPC
  cachePresent : Bool
deriving DecidableEq, Repr

/-- One atomic step of the two-caller system, by thread (`false` = first
caller, `true` = second). -/
inductive FetchStep where
  | check (t : Bool)
  | finish (t : Bool)
deriving DecidableEq, Repr

/-- Read a thread's program counter. -/
def FetchSys.pc (s : FetchSys) (t : Bool) : FetchPC :=
  if t then s.pc2 else s.pc1

/-- Write a thread's program counter. -/
def FetchSys.setPC (s : FetchSys) (t : Bool) (p : FetchPC) : FetchSys :=
  if t then { s with pc2 := p } else { s with pc1 := p }

/-- Execute one step: a `check` by an idle thread returns the cached value
when one is present, else starts that thread's own fetch; a `finish` by an
in-flight thread installs the fetched entry. Steps not enabled leave the
state unchanged. -/
def fetchStep (s : FetchSys) (a : FetchStep) : FetchSys :=
  match a with
  | .check t =>
    if s.pc t = .idle then
      if s.cachePresent then s.setPC t .done
      else s.setPC t .inflight
    else s
  | .finish t =>
    if s.pc t = .inflight then { s.setPC t .done with cachePresent := true }
    else s

/-- Run a schedule of steps from a state. -/
def fetchRun (s : FetchSys) : List FetchStep → FetchSys
  | [] => s
  | a :: rest => fetchRun (fetchStep s a) rest

/-- Both callers start idle with an empty (or expired) cache. -/
def fetchInit : FetchSys := ⟨.idle, .idle, false⟩

/-- The number of fetches currently in flight against the external API. -/
def inFlightFetches (s : FetchSys) : Nat :=
  (if s.pc1 = .inflight then 1 else 0) + (if s.pc2 = .inflight then 1 else 0)

/-! ## Helper lemmas -/

/-- The pricing check never produces the max-delay outcome. -/
theorem checkPricingConstraints_ne_admitMaxDelay (cfg : CGConfig) (pod : Pod)
    (pricingRate : Option ℚ) :
    checkPricingConstraints cfg pod pricingRate ≠ some .admitMaxDelay := by
  unfold checkPricingConstraints
  rcases pricingRate with _ | rate
  · simp
  · rcases hann : annLookup pod "price-aware-scheduler.kubernetes.io/price-threshold" with _ | v
    · simp only [hann]
      rcases hs : cfg.pricingSchedules with _ | ⟨s0, rest⟩
      · simp
      · simp only
        split <;> simp
    · simp only [hann]
      rcases hp : parseFloatLit v with _ | t
      · simp [hp]
      · simp only [hp]
        split <;> simp

/-- The carbon-intensity check never produces the max-delay outcome. -/
theorem checkCarbonIntensityConstraints_ne_admitMaxDelay (cfg : CGConfig)
    (pod : Pod) (src : CarbonSource) :
    checkCarbonIntensityConstraints cfg pod src ≠ some .admitMaxDelay := by
  unfold checkCarbonIntensityConstraints
  rcases getCarbonIntensityData cfg src with e | intensity
  · simp
  · rcases hann : annLookup pod "carbon-aware-scheduler.kubernetes.io/carbon-intensity-threshold" with _ | v
    · simp only [hann]
      split <;> simp
    · simp only [hann]
      rcases hp : parseFloatLit v with _ | t
      · simp [hp]
      · simp only [hp]
        split <;> simp

/-- The post-delay pipeline never produces the max-delay outcome. -/
theorem cgPostDelayChecks_ne_admitMaxDelay (cfg : CGConfig) (pod : Pod)
    (pricingRate : Option ℚ) (src : CarbonSource) :
    cgPostDelayChecks cfg pod pricingRate src ≠ .admitMaxDelay := by
  unfold cgPostDelayChecks
  split
  · simp
  · rcases hps : (if cfg.pricingEnabled then checkPricingConstraints cfg pod pricingRate
      else none) with _ | r
    · simp only
      rcases hcs : checkCarbonIntensityConstraints cfg pod src with _ | r
      · simp
      · have := checkCarbonIntensityConstraints_ne_admitMaxDelay cfg pod src
        simp only [hcs] at this
        simp_all
    · have : checkPricingConstraints cfg pod pricingRate ≠ some .admitMaxDelay :=
        checkPricingConstraints_ne_admitMaxDelay cfg pod pricingRate
      by_cases hp : cfg.pricingEnabled
      · simp only [hp, if_true] at hps
        simp_all
      · simp [hp] at hps

/-! ## Claim theorems -/

/-- **C1.** For every workload with a non-zero creation timestamp, if the
workload's age exceeds the configured max scheduling delay then the
computegardener `PreFilter` returns the max-delay `Admit` outcome (Go
message `"maximum scheduling delay exceeded"`), regardless of the pricing
rate, the carbon cache contents, or the fetch outcome. -/
theorem maxDelay_forces_admit (cfg : CGConfig) (pod : Pod)
    (pricingRate : Option ℚ) (src : CarbonSource) (age : Int)
    (hage : pod.createdAgo = some age) (hgt : age > cfg.maxSchedulingDelay) :
    cgEvaluate cfg pod pricingRate src = .admitMaxDelay := by
  unfold cgEvaluate hasExceededMaxDelay
  rw [hage]
  simp [hgt]

/-- Witness for `maxDelay_forces_admit`: a pod 25 hours old against a 24-hour
budget is admitted even though the carbon fetch fails and pricing is at a
high rate. -/
theorem maxDelay_forces_admit_witness :
    cgEvaluate
      { pricingEnabled := true, pricingSchedules := [],
        maxSchedulingDelay := 86400, baseCarbonIntensityThreshold := 200,
        cacheTTL := 300, maxCacheAge := 3600 }
      { createdAgo := some 90000, annotations := [] }
      (some 99) { cached := none, fetch := .error "unavailable" } =
      .admitMaxDelay :=
  maxDelay_forces_admit _ _ _ _ 90000 rfl (by norm_num)

/-- **C6.** For every workload whose max-delay check does not fire, if either
skip annotation is `"true"` then the computegardener `PreFilter` returns the
opt-out `Admit` outcome, for every pricing rate and every carbon-source
state — in particular when the pricing provider is absent and the carbon
fetch fails, so opt-out forces admission even when external signals are
unavailable. -/
theorem optout_forces_admit (cfg : CGConfig) (pod : Pod)
    (pricingRate : Option ℚ) (src : CarbonSource)
    (hdelay : hasExceededMaxDelay cfg pod = false)
    (hskip : isOptedOut pod = true) :
    cgEvaluate cfg pod pricingRate src = .admitOptedOut := by
  unfold cgEvaluate cgPostDelayChecks
  simp [hdelay, hskip]

/-- Witness for `optout_forces_admit`: a fresh pod with the carbon skip
annotation is admitted with no pricing implementation and a failing carbon
fetch. -/
theorem optout_forces_admit_witness :
    cgEvaluate
      { pricingEnabled := true, pricingSchedules := [],
        maxSchedulingDelay := 86400, baseCarbonIntensityThreshold := 200,
        cacheTTL := 300, maxCacheAge := 3600 }
      { createdAgo := some 0,
        annotations := [("carbon-aware-scheduler.kubernetes.io/skip", "true")] }
      none { cached := none, fetch := .error "unavailable" } =
      .admitOptedOut :=
  optout_forces_admit _ _ _ _ rfl rfl

/-- **C10.** For every workload whose creation timestamp is the zero value
(`createdAgo = none`), the max-delay check never fires: the outcome equals
that of the remaining pipeline and is never the max-delay admission, no
matter how large the configured delay or how long the pod has been
waiting. -/
theorem zero_timestamp_skips_delay (cfg : CGConfig) (pod : Pod)
    (pricingRate : Option ℚ) (src : CarbonSource)
    (hzero : pod.createdAgo = none) :
    hasExceededMaxDelay cfg pod = false ∧
    cgEvaluate cfg pod pricingRate src = cgPostDelayChecks cfg pod pricingRate src ∧
    cgEvaluate cfg pod pricingRate src ≠ .admitMaxDelay := by
  have hdelay : hasExceededMaxDelay cfg pod = false := by
    unfold hasExceededMaxDelay
    rw [hzero]
  refine ⟨hdelay, ?_, ?_⟩
  · unfold cgEvaluate
    simp [hdelay]
  · unfold cgEvaluate
    simp only [hdelay, Bool.false_eq_true, if_false]
    exact cgPostDelayChecks_ne_admitMaxDelay cfg pod pricingRate src

/-- Witness for `zero_timestamp_skips_delay`: a pod with the zero creation
timestamp is decided by the carbon check alone (here: admitted). -/
theorem zero_timestamp_skips_delay_witness :
    hasExceededMaxDelay
        { pricingEnabled := false, pricingSchedules := [],
          maxSchedulingDelay := 86400, baseCarbonIntensityThreshold := 200,
          cacheTTL := 300, maxCacheAge := 3600 }
        { createdAgo := none, annotations := [] } = false ∧
    cgEvaluate
        { pricingEnabled := false, pricingSchedules := [],
          maxSchedulingDelay := 86400, baseCarbonIntensityThreshold := 200,
          cacheTTL := 300, maxCacheAge := 3600 }
        { createdAgo := none, annotations := [] }
        none { cached := none, fetch := .ok 150 } =
      cgPostDelayChecks
        { pricingEnabled := false, pricingSchedules := [],
          maxSchedulingDelay := 86400, baseCarbonIntensityThreshold := 200,
          cacheTTL := 300, maxCacheAge := 3600 }
        { createdAgo := none, annotations := [] }
        none { cached := none, fetch := .ok 150 } := by
  have h := zero_timestamp_skips_delay
    { pricingEnabled := false, pricingSchedules := [],
      maxSchedulingDelay := 86400, baseCarbonIntensityThreshold := 200,
      cacheTTL := 300, maxCacheAge := 3600 }
    { createdAgo := none, annotations := [] }
    none { cached := none, fetch := .ok 150 } rfl
  exact ⟨h.1, h.2.1⟩

/-- **C2** counterexample. The claim's `isInside` (modelled verbatim as
`specIsInside`) holds at Monday 16:00 for the window `1-5, 16:00–21:00`
(the weekday is in the set and minute 960 lies in `[960, 1260)`), but the
source's `isTimeInSchedule` returns `false` there: its interval is open at
the start minute (`currentTime.After(startTime)` is strict). -/
theorem window_start_minute_cex :
    specIsInside [1, 2, 3, 4, 5] 960 1260 ⟨1, 960⟩ = true ∧
    goParseHHMM "16:00" = some 960 ∧
    goParseHHMM "21:00" = some 1260 ∧
    isDayInSchedule 1 "1-5" = true ∧
    isTimeInSchedule ⟨1, 960⟩
      { dayOfWeek := "1-5", startTime := "16:00", endTime := "21:00",
        peakRate := 0, offPeakRate := 0 } = false := by
  refine ⟨by decide, by decide, by decide, by decide, by decide⟩

/-- **C2** amended. `isTimeInSchedule` returns true iff the weekday is in
the schedule's day set and the minute of day lies in the *open* interval
`(startMinute, endMinute)` when `startMinute ≤ endMinute`, else in
`(startMinute, 1440) ∪ [0, endMinute)`; a day range `d1-d2` with `d1 > d2`
does wrap across the week boundary (`5-1` is `{5, 6, 0, 1}`), and the
window `22:00–02:00` matches instants strictly between 22:00 and midnight
and from midnight up to 02:00 (Sunday 01:30 with days `5-1` is inside). -/
theorem isTimeInSchedule_spec :
    (∀ (now : Instant) (sched : Schedule) (s e : Nat),
        goParseHHMM sched.startTime = some s →
        goParseHHMM sched.endTime = some e →
        isTimeInSchedule now sched =
          (isDayInSchedule now.weekday sched.dayOfWeek &&
            if s ≤ e then decide (s < now.minute) && decide (now.minute < e)
            else decide (s < now.minute) || decide (now.minute < e))) ∧
    (∀ d : Nat, d ≤ 6 →
        isDayInSchedule d "5-1" = decide (d = 5 ∨ d = 6 ∨ d = 0 ∨ d = 1)) ∧
    isTimeInSchedule ⟨0, 90⟩
      { dayOfWeek := "5-1", startTime := "22:00", endTime := "02:00",
        peakRate := 0, offPeakRate := 0 } = true ∧
    isTimeInSchedule ⟨5, 1350⟩
      { dayOfWeek := "5-1", startTime := "22:00", endTime := "02:00",
        peakRate := 0, offPeakRate := 0 } = true := by
  refine ⟨?_, ?_, by decide, by decide⟩
  · intro now sched s e hs he
    unfold isTimeInSchedule
    rw [hs, he]
    cases hday : isDayInSchedule now.weekday sched.dayOfWeek
    · simp
    · simp only [Bool.not_true, Bool.false_eq_true, if_false, Bool.true_and]
      by_cases hse : s ≤ e
      · have hlt : ¬ e < s := by omega
        simp [hse, hlt]
      · have hlt : e < s := by omega
        simp [hse, hlt]
  · intro d hd
    interval_cases d <;> decide

/-- Witness for `isTimeInSchedule_spec` at a concrete schedule and instant
(Monday 16:01 against the `1-5, 16:00–21:00` window) and at day 6 for the
wrapped `5-1` range. -/
theorem isTimeInSchedule_spec_witness :
    (isTimeInSchedule ⟨1, 961⟩
        { dayOfWeek := "1-5", startTime := "16:00", endTime := "21:00",
          peakRate := 0, offPeakRate := 0 } =
      (isDayInSchedule 1 "1-5" &&
        if 960 ≤ 1260 then decide (960 < 961) && decide (961 < 1260)
        else decide (960 < 961) || decide (961 < 1260))) ∧
    isDayInSchedule 6 "5-1" = decide (6 = 5 ∨ 6 = 6 ∨ 6 = 0 ∨ 6 = 1) :=
  ⟨isTimeInSchedule_spec.1 ⟨1, 961⟩
      { dayOfWeek := "1-5", startTime := "16:00", endTime := "21:00",
        peakRate := 0, offPeakRate := 0 } 960 1260 rfl rfl,
    isTimeInSchedule_spec.2.1 6 (by decide)⟩

/-- **C3** counterexample. With TTL 300 s and MaxAge 3600 s, an entry of
age 600 s is stale-usable (TTL ≤ age < MaxAge) and its reading 123 is
under the 200 threshold, yet when the refresh fetch fails the pipeline
returns the carbon-unavailable error rather than proceeding with the stale
reading: no stale fallback exists in `getCarbonIntensityData`. -/
theorem stale_fallback_cex :
    (300 : Int) ≤ 600 ∧ (600 : Int) < 3600 ∧
    getCarbonIntensityData
      { pricingEnabled := false, pricingSchedules := [],
        maxSchedulingDelay := 86400, baseCarbonIntensityThreshold := 200,
        cacheTTL := 300, maxCacheAge := 3600 }
      { cached := some (123, 600), fetch := .error "transient" } =
        .error "transient" ∧
    cgEvaluate
      { pricingEnabled := false, pricingSchedules := [],
        maxSchedulingDelay := 86400, baseCarbonIntensityThreshold := 200,
        cacheTTL := 300, maxCacheAge := 3600 }
      { createdAgo := some 0, annotations := [] } none
      { cached := some (123, 600), fetch := .error "transient" } =
        .errCarbonUnavailable "transient" := by
  refine ⟨by norm_num, by norm_num, rfl, rfl⟩

/-- **C3** amended. Whenever the cache misses (no fresh entry — in
particular when the only entry is merely stale-usable) and the refresh
fetch fails, `getCarbonIntensityData` returns that error unchanged: the
stale entry is never consulted as a fallback. A fresh entry, by contrast,
is returned without fetching. -/
theorem refresh_failure_propagates :
    (∀ (cfg : CGConfig) (src : CarbonSource) (e : String),
        cacheGet src cfg.cacheTTL = none → src.fetch = .error e →
        getCarbonIntensityData cfg src = .error e) ∧
    (∀ (cfg : CGConfig) (src : CarbonSource) (v : ℚ),
        cacheGet src cfg.cacheTTL = some v →
        getCarbonIntensityData cfg src = .ok v) := by
  constructor
  · intro cfg src e hmiss hfail
    unfold getCarbonIntensityData
    rw [hmiss, hfail]
  · intro cfg src v hhit
    unfold getCarbonIntensityData
    rw [hhit]

/-- Witness for `refresh_failure_propagates`: a stale-usable entry of age
600 s against TTL 300 s misses, and the fetch error surfaces; a fresh entry
of age 10 s hits. -/
theorem refresh_failure_propagates_witness :
    getCarbonIntensityData
      { pricingEnabled := false, pricingSchedules := [],
        maxSchedulingDelay := 86400, baseCarbonIntensityThreshold := 200,
        cacheTTL := 300, maxCacheAge := 3600 }
      { cached := some (123, 600), fetch := .error "boom" } = .error "boom" ∧
    getCarbonIntensityData
      { pricingEnabled := false, pricingSchedules := [],
        maxSchedulingDelay := 86400, baseCarbonIntensityThreshold := 200,
        cacheTTL := 300, maxCacheAge := 3600 }
      { cached := some (123, 10), fetch := .error "boom" } = .ok 123 :=
  ⟨refresh_failure_propagates.1 _ _ "boom" rfl rfl,
    refresh_failure_propagates.2 _ _ 123 rfl⟩

/-- **C5** counterexample. The spec's scenario — schedule
`{1-5, 16:00–21:00, peak = 0.25, offPeak = 0.10}`, Monday 17:00 (a peak
instant of that schedule), current rate 0.25, no annotation — produces a
deferral whose threshold is the first schedule's *off-peak* rate 0.10, not
the claimed peak threshold 0.15: `checkPricingConstraints` never selects
the peak rate for peak periods. -/
theorem pricing_threshold_cex :
    isTimeInSchedule ⟨1, 1020⟩
      { dayOfWeek := "1-5", startTime := "16:00", endTime := "21:00",
        peakRate := 0.25, offPeakRate := 0.10 } = true ∧
    checkPricingConstraints
      { pricingEnabled := true,
        pricingSchedules :=
          [{ dayOfWeek := "1-5", startTime := "16:00", endTime := "21:00",
             peakRate := 0.25, offPeakRate := 0.10 }],
        maxSchedulingDelay := 86400, baseCarbonIntensityThreshold := 200,
        cacheTTL := 300, maxCacheAge := 3600 }
      { createdAgo := some 0, annotations := [] } (some 0.25) =
        some (.deferPrice 0.25 0.10) ∧
    (0.10 : ℚ) ≠ 0.15 := by
  refine ⟨by decide, ?_, by norm_num⟩
  unfold checkPricingConstraints
  simp [annLookup]
  norm_num

/-- **C5** amended. The pricing threshold is: the parsed per-workload
`price-threshold` annotation when present, else the **off-peak rate of the
first configured schedule** — independently of whether the current period
is peak — else the missing-pricing-config error; the deferral fires exactly
when `rate > threshold`. In the spec's scenario the outcome is a deferral
of 0.25 against 0.10. -/
theorem pricing_threshold_spec (cfg : CGConfig) (pod : Pod) (rate : ℚ) :
    (∀ (s0 : Schedule) (rest : List Schedule),
        annLookup pod "price-aware-scheduler.kubernetes.io/price-threshold" = none →
        cfg.pricingSchedules = s0 :: rest →
        checkPricingConstraints cfg pod (some rate) =
          (if rate > s0.offPeakRate then some (.deferPrice rate s0.offPeakRate)
           else none)) ∧
    (∀ (v : String) (t : ℚ),
        annLookup pod "price-aware-scheduler.kubernetes.io/price-threshold" = some v →
        parseFloatLit v = some t →
        checkPricingConstraints cfg pod (some rate) =
          (if rate > t then some (.deferPrice rate t) else none)) ∧
    (annLookup pod "price-aware-scheduler.kubernetes.io/price-threshold" = none →
        cfg.pricingSchedules = [] →
        checkPricingConstraints cfg pod (some rate) =
          some .errNoPricingSchedules) := by
  refine ⟨?_, ?_, ?_⟩
  · intro s0 rest hann hs
    unfold checkPricingConstraints
    simp only [hann, hs]
  · intro v t hann hv
    unfold checkPricingConstraints
    simp only [hann, hv]
  · intro hann hs
    unfold checkPricingConstraints
    simp only [hann, hs]

/-- Witness for `pricing_threshold_spec` at the spec scenario's inputs. -/
theorem pricing_threshold_spec_witness :
    checkPricingConstraints
      { pricingEnabled := true,
        pricingSchedules :=
          [{ dayOfWeek := "1-5", startTime := "16:00", endTime := "21:00",
             peakRate := 0.25, offPeakRate := 0.10 }],
        maxSchedulingDelay := 86400, baseCarbonIntensityThreshold := 200,
        cacheTTL := 300, maxCacheAge := 3600 }
      { createdAgo := some 0, annotations := [] } (some 0.25) =
      (if (0.25 : ℚ) > 0.10 then some (.deferPrice 0.25 0.10) else none) :=
  (pricing_threshold_spec _ _ 0.25).1
    { dayOfWeek := "1-5", startTime := "16:00", endTime := "21:00",
      peakRate := 0.25, offPeakRate := 0.10 } [] rfl rfl

/-- **C7** counterexample. The config package's `validateSchedule` rejects
both `"1-5"` and `"0,6"` (every rune must be a digit `0..6`, so `'-'` and
`','` fail), although the claim says they pass; and
`ValidateScheduleConfig` accepts the start time `"1:30"`, although the
claim says any hour that is not two-digit fails. -/
theorem schedule_validation_cex :
    validateSchedule
      { dayOfWeek := "1-5", startTime := "16:00", endTime := "21:00",
        peakRate := 0, offPeakRate := 0 } = .error .invalidDay ∧
    validateSchedule
      { dayOfWeek := "0,6", startTime := "13:00", endTime := "19:00",
        peakRate := 0, offPeakRate := 0 } = .error .invalidDay ∧
    ValidateScheduleConfig
      { dayOfWeek := "1", startTime := "1:30", endTime := "21:00",
        peakRate := 0, offPeakRate := 0 } = .ok () :=
  ⟨rfl, rfl, rfl⟩

/-- **C7** amended. `ValidateScheduleConfig` accepts a `dayOfWeek` exactly
when every comma item splits on `'-'` into at most two parts, each
`Atoi`-parsing into `0..6` (so `"1-5"` and `"0,6"` pass there, while
out-of-range digits and malformed items fail); `validateSchedule` (the
config package) instead accepts exactly the strings whose every character
is a digit `0..6`; and both accept exactly the times Go's `HH:MM` parser
accepts, which includes one-digit hours `0..9` and excludes hours ≥ 24 and
non-two-digit minutes. -/
theorem schedule_validation_spec :
    (∀ s : Schedule, validateSchedule s = .ok () ↔
        s.dayOfWeek.data.all (fun c => '0' ≤ c && c ≤ '6') = true ∧
        (goParseHHMM s.startTime).isSome = true ∧
        (goParseHHMM s.endTime).isSome = true) ∧
    (∀ s : Schedule, ValidateScheduleConfig s = .ok () ↔
        (splitOnChar ',' s.dayOfWeek.data).all dayItemOk = true ∧
        (goParseHHMM s.startTime).isSome = true ∧
        (goParseHHMM s.endTime).isSome = true) ∧
    ValidateScheduleConfig
      { dayOfWeek := "1-5", startTime := "16:00", endTime := "21:00",
        peakRate := 0, offPeakRate := 0 } = .ok () ∧
    ValidateScheduleConfig
      { dayOfWeek := "0,6", startTime := "13:00", endTime := "19:00",
        peakRate := 0, offPeakRate := 0 } = .ok () ∧
    ValidateScheduleConfig
      { dayOfWeek := "7", startTime := "16:00", endTime := "21:00",
        peakRate := 0, offPeakRate := 0 } = .error .invalidDay ∧
    ValidateScheduleConfig
      { dayOfWeek := "1-2-3", startTime := "16:00", endTime := "21:00",
        peakRate := 0, offPeakRate := 0 } = .error .invalidDay ∧
    ValidateScheduleConfig
      { dayOfWeek := "1", startTime := "24:00", endTime := "21:00",
        peakRate := 0, offPeakRate := 0 } = .error .invalidTime ∧
    ValidateScheduleConfig
      { dayOfWeek := "1", startTime := "16:00", endTime := "16:5",
        peakRate := 0, offPeakRate := 0 } = .error .invalidTime := by
  refine ⟨?_, ?_, rfl, rfl, rfl, rfl, rfl, rfl⟩
  · intro s
    unfold validateSchedule
    split_ifs <;> simp_all
  · intro s
    unfold ValidateScheduleConfig
    split_ifs <;> simp_all

/-- **C4** counterexample. With the in-flight count already at the cap
(2 of 2), a fresh unannotated pod, and a successful carbon fetch reading
250 against base threshold 200, `PreFilter` returns the intensity deferral
— not the concurrency-cap deferral — and the carbon cache/API *was*
consulted (third component `true`): the cap check runs after the carbon
check, not before the signal is consulted. -/
theorem concurrency_order_cex :
    revAPreFilter
      { baseCarbonIntensityThreshold := 200, peakCarbonIntensityThreshold := 150,
        maxSchedulingDelay := 86400, maxConcurrentPods := 2, peakSchedules := none }
      { pod := { createdAgo := some 0, annotations := [] },
        fetch := .ok 250, now := ⟨1, 720⟩ } 2 =
      (.deferCarbon false 250 200, 2, true) ∧
    RAResult.deferCarbon false 250 200 ≠ .deferConcurrency 2 2 := by
  constructor
  · unfold revAPreFilter
    simp [annLookup, annGet]
    norm_num
  · simp

/-- **C4** amended. The concurrency-cap check is the *last* gating check of
`PreFilter`: when neither max-delay nor opt-out applies, the fetch
succeeds, no threshold annotation is present and the intensity is within
the effective threshold, then a count at the cap yields the concurrency
deferral (with the signal already consulted and the count unchanged), and
a count below the cap yields success with the count incremented — the
increment happens only after every other check has passed. -/
theorem concurrency_gate_last (cfg : RAConfig) (inp : RAInput) (count : Int)
    (intensity : ℚ)
    (hdelay : ∀ a : Int, inp.pod.createdAgo = some a → a ≤ cfg.maxSchedulingDelay)
    (hskip : annGet inp.pod "carbon-aware-scheduler.kubernetes.io/skip" ≠ "true")
    (hfetch : inp.fetch = .ok intensity)
    (hann : annLookup inp.pod
        "carbon-aware-scheduler.kubernetes.io/carbon-intensity-threshold" = none)
    (hthr : intensity ≤
        (if (match cfg.peakSchedules with
              | some scheds => isPeakHourA inp.now scheds
              | none => false) then
          cfg.peakCarbonIntensityThreshold
        else cfg.baseCarbonIntensityThreshold)) :
    (count ≥ cfg.maxConcurrentPods →
      revAPreFilter cfg inp count =
        (.deferConcurrency cfg.maxConcurrentPods count, count, true)) ∧
    (count < cfg.maxConcurrentPods →
      revAPreFilter cfg inp count = (.admitSuccess, count + 1, true)) := by
  have hd : (match inp.pod.createdAgo with
      | some age => decide (age > cfg.maxSchedulingDelay)
      | none => false) = false := by
    cases hc : inp.pod.createdAgo with
    | none => rfl
    | some a =>
      have := hdelay a hc
      simp
      omega
  have hnotgt : ¬ intensity >
      (if (match cfg.peakSchedules with
            | some scheds => isPeakHourA inp.now scheds
            | none => false) then
        cfg.peakCarbonIntensityThreshold
      else cfg.baseCarbonIntensityThreshold) := not_lt.mpr hthr
  constructor
  · intro hge
    unfold revAPreFilter
    simp only [hd, hfetch, hann, hskip, if_false, Bool.false_eq_true]
    simp [hskip, hnotgt, hge]
  · intro hlt
    unfold revAPreFilter
    simp only [hd, hfetch, hann, hskip, if_false, Bool.false_eq_true]
    simp [hskip, hnotgt, not_le.mpr hlt]

/-- Witness for `concurrency_gate_last`: at the cap (2 of 2) the deferral
is returned with the count unchanged; below the cap (1 of 2) the pod is
admitted and the count incremented. -/
theorem concurrency_gate_last_witness :
    revAPreFilter
      { baseCarbonIntensityThreshold := 200, peakCarbonIntensityThreshold := 150,
        maxSchedulingDelay := 86400, maxConcurrentPods := 2, peakSchedules := none }
      { pod := { createdAgo := some 0, annotations := [] },
        fetch := .ok 150, now := ⟨1, 720⟩ } 2 =
      (.deferConcurrency 2 2, 2, true) ∧
    revAPreFilter
      { baseCarbonIntensityThreshold := 200, peakCarbonIntensityThreshold := 150,
        maxSchedulingDelay := 86400, maxConcurrentPods := 2, peakSchedules := none }
      { pod := { createdAgo := some 0, annotations := [] },
        fetch := .ok 150, now := ⟨1, 720⟩ } 1 =
      (.admitSuccess, 2, true) := by
  constructor
  · have h := concurrency_gate_last
      { baseCarbonIntensityThreshold := 200, peakCarbonIntensityThreshold := 150,
        maxSchedulingDelay := 86400, maxConcurrentPods := 2, peakSchedules := none }
      { pod := { createdAgo := some 0, annotations := [] },
        fetch := .ok 150, now := ⟨1, 720⟩ }
      2 150 (by intro a ha; cases ha; norm_num) (by simp [annGet, annLookup])
      rfl rfl (by norm_num)
    exact h.1 (by norm_num)
  · have h := concurrency_gate_last
      { baseCarbonIntensityThreshold := 200, peakCarbonIntensityThreshold := 150,
        maxSchedulingDelay := 86400, maxConcurrentPods := 2, peakSchedules := none }
      { pod := { createdAgo := some 0, annotations := [] },
        fetch := .ok 150, now := ⟨1, 720⟩ }
      1 150 (by intro a ha; cases ha; norm_num) (by simp [annGet, annLookup])
      rfl rfl (by norm_num)
    exact h.2 (by norm_num)

/-- One `PreFilter` call changes the counter either not at all, or by `+1`
when (and only when) the count was strictly below the cap. -/
theorem revAPreFilter_count (cfg : RAConfig) (inp : RAInput) (count : Int) :
    (revAPreFilter cfg inp count).2.1 = count ∨
    ((revAPreFilter cfg inp count).2.1 = count + 1 ∧
      count < cfg.maxConcurrentPods) := by
  unfold revAPreFilter
  dsimp only
  repeat' split
  all_goals first
    | (left; rfl)
    | (right; exact ⟨rfl, by omega⟩)

/-- **C8.** Starting from an in-flight count of zero, every sequence of
`PreFilter` and `PostBind` callbacks keeps the counter within
`[0, maxConcurrentPods]` (for any non-negative cap): `PreFilter` increments
only below the cap and `PostBind` decrements only when positive. -/
theorem counter_bounds (cap : Int) (hcap : 0 ≤ cap) (ops : List RAOp) :
    0 ≤ raRunCount cap 0 ops ∧ raRunCount cap 0 ops ≤ cap := by
  suffices h : ∀ (ops : List RAOp) (c : Int), 0 ≤ c → c ≤ cap →
      0 ≤ raRunCount cap c ops ∧ raRunCount cap c ops ≤ cap by
    exact h ops 0 le_rfl hcap
  intro ops
  induction ops with
  | nil => intro c h0 h1; exact ⟨h0, h1⟩
  | cons op rest ih =>
    intro c h0 h1
    cases op with
    | pre cfg inp =>
      simp only [raRunCount]
      rcases revAPreFilter_count { cfg with maxConcurrentPods := cap } inp c
        with h | ⟨h, hlt⟩
      · rw [h]; exact ih c h0 h1
      · rw [h]
        simp only at hlt
        exact ih (c + 1) (by omega) (by omega)
    | post =>
      simp only [raRunCount]
      have hb : 0 ≤ revAPostBind c ∧ revAPostBind c ≤ cap := by
        unfold revAPostBind
        split <;> omega
      exact ih (revAPostBind c) hb.1 hb.2

/-- Witness for `counter_bounds`: cap 2 and a concrete sequence of two
admissions (the second deferred at the cap: the counter peaks at 2)
followed by two bind completions. -/
theorem counter_bounds_witness :
    0 ≤ raRunCount 2 0
        [.pre { baseCarbonIntensityThreshold := 200,
                peakCarbonIntensityThreshold := 150,
                maxSchedulingDelay := 86400, maxConcurrentPods := 2,
                peakSchedules := none }
              { pod := { createdAgo := some 0, annotations := [] },
                fetch := .ok 150, now := ⟨1, 720⟩ },
         .post, .post] ∧
    raRunCount 2 0
        [.pre { baseCarbonIntensityThreshold := 200,
                peakCarbonIntensityThreshold := 150,
                maxSchedulingDelay := 86400, maxConcurrentPods := 2,
                peakSchedules := none }
              { pod := { createdAgo := some 0, annotations := [] },
                fetch := .ok 150, now := ⟨1, 720⟩ },
         .post, .post] ≤ 2 :=
  counter_bounds 2 (by norm_num) _

/-- **C9** counterexample. Two concurrent callers that both miss the cache
before either fetch completes are both in flight at once: the reachable
state after both `check` steps has two concurrent fetches, contradicting
"at most one in-flight fetch per region". -/
theorem fetch_coalescing_cex :
    inFlightFetches (fetchRun fetchInit [.check false, .check true]) = 2 :=
  rfl

/-- **C9** amended. `getElectricityData` has no single-flight guard: every
caller that observes a miss starts its own fetch, even while another fetch
is in flight, so up to one fetch per caller can be in flight concurrently
(two with two callers); each completing fetch installs the entry, after
which both callers are done. -/
theorem fetch_per_miss :
    (∀ (s : FetchSys) (t : Bool), s.pc t = .idle → s.cachePresent = false →
        (fetchStep s (.check t)).pc t = .inflight) ∧
    (∀ s : FetchSys, inFlightFetches s ≤ 2) ∧
    fetchRun fetchInit [.check false, .check true, .finish false, .finish true] =
      ⟨.done, .done, true⟩ := by
  refine ⟨?_, ?_, rfl⟩
  · intro s t hidle hmiss
    unfold fetchStep
    simp only [hidle, hmiss, if_true, Bool.false_eq_true, if_false]
    unfold FetchSys.setPC FetchSys.pc
    cases t <;> simp
  · intro s
    unfold inFlightFetches
    split_ifs <;> omega

/-- Witness for `fetch_per_miss`: the first caller's miss from the initial
state starts its own fetch. -/
theorem fetch_per_miss_witness :
    (fetchStep fetchInit (.check false)).pc false = .inflight :=
  fetch_per_miss.1 fetchInit false rfl rfl

end CarbonSched
